import Mathlib

/-!
Shallow embedding of the AV7 Gap Analyzer (`src/app.py`), covering the core
analysis block: prefix exclusion, flight-id normalisation, receipt-id
coercion and sorting, time parsing, unmatched-flight pool construction and
the gap-search loop, together with theorems settling the specification
claims about it.
-/

namespace AV7

/-! ### Normalizer -/

/-- The character class kept by `re.sub(r'[^A-Za-z0-9]', '', ·)`:
ASCII letters and digits. -/
def isFlightKeep (c : Char) : Bool :=
  (decide (65 ≤ c.toNat) && decide (c.toNat ≤ 90)) ||
  (decide (97 ≤ c.toNat) && decide (c.toNat ≤ 122)) ||
  (decide (48 ≤ c.toNat) && decide (c.toNat ≤ 57))

/-- ASCII uppercasing of one character; `str.upper()` agrees with this on the
ASCII-only output of the regex substitution it is applied to. -/
def asciiUpper (c : Char) : Char :=
  if 97 ≤ c.toNat ∧ c.toNat ≤ 122 then Char.ofNat (c.toNat - 32) else c

/-- `re.sub(r'[^A-Za-z0-9]', '', s).upper()` on a present string. -/
def cleanFlightStr (s : String) : String :=
  String.mk (((s.data).filter isFlightKeep).map asciiUpper)

/-- `clean_flight_number` (src/app.py:11-13): missing input (`pd.isna`)
yields the empty string, otherwise strip non-alphanumerics and uppercase. -/
def clean_flight_number : Option String → String
  | none => ""
  | some s => cleanFlightStr s

/-- Value of an ASCII digit character. -/
def digitVal (c : Char) : Nat := c.toNat - 48

/-- Python `str.strip()`: drop leading and trailing whitespace. -/
def trimList (cs : List Char) : List Char :=
  ((cs.dropWhile Char.isWhitespace).reverse.dropWhile Char.isWhitespace).reverse

/-- Python `str.split(sep)` for a one-character separator. -/
def splitOnChar (sep : Char) : List Char → List (List Char)
  | [] => [[]]
  | c :: rest =>
    match splitOnChar sep rest with
    | [] => [[]]
    | g :: gs => if c = sep then [] :: g :: gs else (c :: g) :: gs

/-- Decimal value of a nonempty all-digit character list. -/
def parseNatDigits (cs : List Char) : Option Nat :=
  if cs ≠ [] ∧ cs.all Char.isDigit then
    some (cs.foldl (fun a c => a * 10 + digitVal c) 0)
  else none

/-- `pd.to_numeric(·, errors='coerce')` on the AV7 field (src/app.py:108),
restricted to integer-valued receipts as in the data model: optional
surrounding whitespace and sign, then decimal digits; anything else is NaN. -/
def parseAV7Num (s : String) : Option Int :=
  match trimList s.data with
  | [] => none
  | c :: rest =>
    if c = '-' then (parseNatDigits rest).map (fun n => -(n : Int))
    else if c = '+' then (parseNatDigits rest).map (fun n => (n : Int))
    else (parseNatDigits (c :: rest)).map (fun n => (n : Int))

/-- Time of day as parsed by the analyzer (`datetime` values all carry the
same default date, so only hour/minute/second matter). -/
structure Time where
  hour : Nat
  minute : Nat
  second : Nat
deriving Repr, DecidableEq

/-- One `strptime` numeric field standing alone between separators:
one or two digits, value at most `hi`. -/
def parseField (cs : List Char) (hi : Nat) : Option Nat :=
  if cs.length = 1 ∨ cs.length = 2 then
    match parseNatDigits cs with
    | some v => if v ≤ hi then some v else none
    | none => none
  else none

/-- `pd.to_datetime(·, format='%H:%M:%S', errors='coerce')` (src/app.py:114):
three colon-separated 1-2 digit fields, hour ≤ 23, minute ≤ 59, second ≤ 59
(a larger second is rejected by the `datetime` constructor, hence NaT). -/
def parseHMS (s : String) : Option Time :=
  match splitOnChar ':' s.data with
  | [h, m, sec] =>
    match parseField h 23, parseField m 59, parseField sec 59 with
    | some hh, some mm, some ss => some ⟨hh, mm, ss⟩
    | _, _, _ => none
  | _ => none

/-- Python `str.zfill(4)`: left-pad with zeros to length 4, after any sign. -/
def zfill4 (cs : List Char) : List Char :=
  if 4 ≤ cs.length then cs
  else
    match cs with
    | [] => List.replicate 4 '0'
    | c :: rest =>
      if c = '+' ∨ c = '-' then c :: (List.replicate (4 - cs.length) '0' ++ rest)
      else List.replicate (4 - cs.length) '0' ++ cs

/-- `datetime.strptime(s, '%H%M')` on a string of length ≥ 4 (post-`zfill`):
succeeds exactly on four digits with hour ≤ 23 and minute ≤ 59. -/
def parseHHMM (cs : List Char) : Option Time :=
  match cs with
  | [a, b, c, d] =>
    if a.isDigit ∧ b.isDigit ∧ c.isDigit ∧ d.isDigit then
      let hh := digitVal a * 10 + digitVal b
      let mm := digitVal c * 10 + digitVal d
      if hh ≤ 23 ∧ mm ≤ 59 then some ⟨hh, mm, 0⟩ else none
    else none
  | _ => none

/-- `datetime.strptime(s, '%H:%M')`: two colon-separated 1-2 digit fields. -/
def parseHMcolon (cs : List Char) : Option Time :=
  match splitOnChar ':' cs with
  | [h, m] =>
    match parseField h 23, parseField m 59 with
    | some hh, some mm => some ⟨hh, mm, 0⟩
    | _, _ => none
  | _ => none

/-- `parse_std` (src/app.py:116-125): missing input is NaT; otherwise strip a
trailing fractional part, trim, zero-pad to 4 characters, try `%H%M`, then
`%H:%M`, else NaT. -/
def parse_std : Option String → Option Time
  | none => none
  | some v =>
    let s := zfill4 (trimList ((splitOnChar '.' v.data).headD []))
    match parseHHMM s with
    | some t => some t
    | none => parseHMcolon s

/-- `get_minutes` (src/app.py:144-146). -/
def get_minutes : Option Time → Option Nat
  | none => none
  | some t => some (t.hour * 60 + t.minute)

/-- Comparison of two parsed timestamps (`t_next < t_prev`, src/app.py:168):
`datetime` values on the shared default date compare lexicographically by
(hour, minute, second). -/
def Time.lt (a b : Time) : Bool :=
  decide (a.hour < b.hour) ||
  (decide (a.hour = b.hour) &&
    (decide (a.minute < b.minute) ||
     (decide (a.minute = b.minute) && decide (a.second < b.second))))

/-- Two-digit zero padding used by `strftime('%H:%M')`. -/
def pad2 (n : Nat) : String := if n < 10 then "0" ++ toString n else toString n

/-- `strftime('%H:%M')` on a parsed time. -/
def fmtHM (t : Time) : String := pad2 t.hour ++ ":" ++ pad2 t.minute

/-! ### Data model -/

/-- One pasted refueling row (columns `AV7`, `Flight`, `Refuel_Time`);
a missing `Flight` cell is `none` (NaN). -/
structure RefuelRow where
  av7 : String
  flight : Option String
  refuel_time : String
deriving Repr, DecidableEq

/-- One pasted schedule row (columns `Flight`, `STD`). -/
structure ScheduleRow where
  flight : Option String
  std : Option String
deriving Repr, DecidableEq

/-- Sidebar configuration (src/app.py:27-55). -/
structure Config where
  slack_minutes : Int
  series_jump_threshold : Int
  known_cancelled_av7 : List Int
  ignored_flights : List String
  ignore_prefixes : List String
deriving Repr, DecidableEq

/-- A validated receipt row after AV7 coercion, flight cleaning and
refuel-time parsing (a row of `df_refuel_clean`). -/
structure CleanRow where
  av7_num : Int
  flight_clean : String
  refuel_time : Option Time
deriving Repr, DecidableEq

/-- A row of the unmatched-flight pool (`missing_flights_df`); `STD_Minutes`
is recovered as `get_minutes std_parsed`. -/
structure PoolRow where
  flight : Option String
  std_parsed : Option Time
deriving Repr, DecidableEq

/-- One emitted prediction row (src/app.py:193-199). -/
structure Finding where
  missing_av7 : Int
  window_logic : String
  window_start : String
  window_end : String
  potential_flights : String
deriving Repr, DecidableEq

/-- Result of one analysis run: the prediction rows plus the two
debug-section row counts (src/app.py:131-132). -/
structure AnalyzeResult where
  findings : List Finding
  rows_read : Nat
  rows_valid : Nat
deriving Repr, DecidableEq

/-! ### Pipeline -/

/-- `df_refuel['AV7'].astype(str).str.startswith(ignore_prefixes)`. -/
def prefixMatch (cfg : Config) (r : RefuelRow) : Bool :=
  cfg.ignore_prefixes.any (fun p => p.data.isPrefixOf r.av7.data)

/-- Prefix exclusion (src/app.py:100-102); with no configured prefixes the
frame is untouched, which the unconditional filter reproduces. -/
def prefixKept (cfg : Config) (rows : List RefuelRow) : List RefuelRow :=
  rows.filter (fun r => !(prefixMatch cfg r))

/-- Builds the `df_refuel_clean` row for one input row, or `none` when the
AV7 coercion yields NaN and `dropna` discards the row (src/app.py:105-114). -/
def mkCleanRow (r : RefuelRow) : Option CleanRow :=
  (parseAV7Num r.av7).map
    (fun n => ⟨n, clean_flight_number r.flight, parseHMS r.refuel_time⟩)

/-- Sequence Validator: drop rows with unparseable AV7, sort ascending by
`AV7_Num` (src/app.py:108-111). -/
def sequenceValidator (rows : List RefuelRow) : List CleanRow :=
  List.insertionSort (fun x y => x.av7_num ≤ y.av7_num) (rows.filterMap mkCleanRow)

/-- Unmatched-flight pool: schedule rows whose clean flight id is neither
recorded nor ignored, with their parsed STD (src/app.py:127-147). -/
def buildPool (cfg : Config) (recorded : List String) (schedule : List ScheduleRow) : List PoolRow :=
  (schedule.filter (fun s =>
      !(recorded.contains (clean_flight_number s.flight)) &&
      !(cfg.ignored_flights.contains (clean_flight_number s.flight)))).map
    (fun s => ⟨s.flight, parse_std s.std⟩)

/-- Python `str(x)` as used in the candidate f-string: a NaN flight cell
renders as "nan". -/
def flightRawStr : Option String → String
  | none => "nan"
  | some s => s

/-- One iteration of the candidate scan (src/app.py:179-186): skip when
`STD_Minutes` is null (exactly when `STD_Parsed` is NaT), otherwise test
inclusion in the padded window and render `"FLIGHT (HH:MM)"`. -/
def candidateEntry (start_mins end_mins : Int) (r : PoolRow) : Option String :=
  match r.std_parsed with
  | none => none
  | some t =>
    let f_mins : Int := ((t.hour * 60 + t.minute : Nat) : Int)
    if start_mins ≤ f_mins ∧ f_mins ≤ end_mins then
      some (flightRawStr r.flight ++ " (" ++ fmtHM t ++ ")")
    else none

/-- The candidate list of one gap, in pool order. -/
def candidatesFor (start_mins end_mins : Int) (pool : List PoolRow) : List String :=
  pool.filterMap (candidateEntry start_mins end_mins)

/-- `range(int(current_av7) + 1, int(next_av7))` (src/app.py:190). -/
def missingRange (cur nxt : Int) : List Int :=
  (List.range (nxt - cur - 1).toNat).map (fun (k : Nat) => cur + 1 + (k : Int))

/-- `start_time` of an analyzable gap (src/app.py:168-173): the
chronologically earlier of the two adjacent receipt timestamps. -/
def pairStart (t_prev t_next : Time) : Time :=
  if Time.lt t_next t_prev then t_next else t_prev

/-- `end_time` of an analyzable gap (src/app.py:168-173). -/
def pairEnd (t_prev t_next : Time) : Time :=
  if Time.lt t_next t_prev then t_prev else t_next

/-- `logic_note` of an analyzable gap (src/app.py:168-173). -/
def logicNote (t_prev t_next : Time) : String :=
  if Time.lt t_next t_prev then "Swapped (Reverse)" else "Normal"

/-- `start_mins` (src/app.py:175): minutes of `start_time` minus the slack. -/
def startMins (cfg : Config) (t_prev t_next : Time) : Int :=
  (((pairStart t_prev t_next).hour * 60 + (pairStart t_prev t_next).minute : Nat) : Int)
    - cfg.slack_minutes

/-- `end_mins` (src/app.py:176): minutes of `end_time` plus the slack. -/
def endMins (cfg : Config) (t_prev t_next : Time) : Int :=
  (((pairEnd t_prev t_next).hour * 60 + (pairEnd t_prev t_next).minute : Nat) : Int)
    + cfg.slack_minutes

/-- `candidate_str` (src/app.py:178-188): the comma-joined candidate scan of
the pool over the padded window, or the sentinel when nothing matched. -/
def candidateStr (cfg : Config) (pool : List PoolRow) (t_prev t_next : Time) : String :=
  let cands := candidatesFor (startMins cfg t_prev t_next) (endMins cfg t_prev t_next) pool
  if cands.isEmpty then "No flights found in window" else String.intercalate ", " cands

/-- The gap-search loop body for one adjacent pair (src/app.py:152-199). -/
def findingsForPair (cfg : Config) (pool : List PoolRow) (a b : CleanRow) : List Finding :=
  if 1 < b.av7_num - a.av7_num then
    if cfg.series_jump_threshold < b.av7_num - a.av7_num then []
    else
      match a.refuel_time, b.refuel_time with
      | some t_prev, some t_next =>
        (missingRange a.av7_num b.av7_num).filterMap (fun missing_num =>
          if missing_num ∈ cfg.known_cancelled_av7 then none
          else some ⟨missing_num, logicNote t_prev t_next, fmtHM (pairStart t_prev t_next),
                     fmtHM (pairEnd t_prev t_next), candidateStr cfg pool t_prev t_next⟩)
      | _, _ => []
  else []

/-- The gap-search loop over consecutive pairs of the sorted sequence. -/
def gapFindings (cfg : Config) (pool : List PoolRow) : List CleanRow → List Finding
  | a :: b :: rest => findingsForPair cfg pool a b ++ gapFindings cfg pool (b :: rest)
  | _ => []

/-- The whole analysis block (src/app.py:100-199): prefix exclusion, sequence
validation, pool construction, gap search, plus the debug row counts. -/
def analyze (cfg : Config) (refuel : List RefuelRow) (schedule : List ScheduleRow) : AnalyzeResult :=
  let kept := prefixKept cfg refuel
  let clean := sequenceValidator kept
  let pool := buildPool cfg (clean.map (fun c => c.flight_clean)) schedule
  { findings := gapFindings cfg pool clean
    rows_read := kept.length
    rows_valid := clean.length }

/-! ### Concrete scenario inputs -/

/-- Configuration of the end-to-end scenario: slack 60, max gap 10, no
exclusions. -/
def c1cfg : Config := ⟨60, 10, [], [], []⟩

/-- Receipts of the end-to-end scenario. -/
def c1receipts : List RefuelRow :=
  [⟨"100", some "AB1", "09:00:00"⟩, ⟨"103", some "AB2", "10:00:00"⟩]

/-- Schedule of the end-to-end scenario. -/
def c1schedule : List ScheduleRow :=
  [⟨some "AB3", some "0930"⟩, ⟨some "AB4", some "1400"⟩]

/-- Configuration refuting C2: prefix "102" is ignored. -/
def c2cfg : Config := ⟨60, 1000, [], [], ["102"]⟩

/-- Receipts refuting C2: the middle row's raw id "102" starts with the
ignored prefix "102". -/
def c2receipts : List RefuelRow :=
  [⟨"100", some "AB1", "09:00:00"⟩, ⟨"102", some "AB9", "09:30:00"⟩,
   ⟨"103", some "AB2", "10:00:00"⟩]

/-- Configuration for the swapped-order scenario. -/
def c5cfg : Config := ⟨60, 1000, [], [], []⟩

/-- Former receipt of the swapped-order scenario (10:00). -/
def c5a : CleanRow := ⟨100, "AB1", some ⟨10, 0, 0⟩⟩

/-- Later receipt of the swapped-order scenario (09:30, earlier in time). -/
def c5b : CleanRow := ⟨103, "AB2", some ⟨9, 30, 0⟩⟩

/-- Configuration for the ignored-id gap scenario: 101 is a known
cancelled AV7. -/
def c3cfg : Config := ⟨60, 1000, [101], [], []⟩

/-- Former receipt of the ignored-id gap scenario. -/
def c3a : CleanRow := ⟨100, "AB1", some ⟨9, 0, 0⟩⟩

/-- Later receipt of the ignored-id gap scenario: gap size 2, only in-between
integer is the ignored 101. -/
def c3b : CleanRow := ⟨102, "AB2", some ⟨10, 0, 0⟩⟩

/-- Configuration for the enumeration scenario: 101 is ignored. -/
def c6cfg : Config := ⟨60, 1000, [101], [], []⟩

/-- Former receipt of the enumeration scenario. -/
def c6a : CleanRow := ⟨100, "AB1", some ⟨9, 0, 0⟩⟩

/-- Later receipt of the enumeration scenario. -/
def c6b : CleanRow := ⟨103, "AB2", some ⟨10, 0, 0⟩⟩

/-- Configuration for the seconds-only swap scenario. -/
def c8cfg : Config := ⟨60, 1000, [], [], []⟩

/-- Former receipt of the seconds-only swap scenario (09:00:30). -/
def c8a : CleanRow := ⟨100, "AB1", some ⟨9, 0, 30⟩⟩

/-- Later receipt of the seconds-only swap scenario (09:00:10, earlier by
seconds only). -/
def c8b : CleanRow := ⟨103, "AB2", some ⟨9, 0, 10⟩⟩

/-! ### Helper lemmas -/

theorem toNat_ofNat_valid {n : Nat} (h : n.isValidChar) : (Char.ofNat n).toNat = n := by
  simp [Char.ofNat, dif_pos h, Char.ofNatAux, Char.toNat, UInt32.toNat]

theorem asciiUpper_asciiUpper (c : Char) : asciiUpper (asciiUpper c) = asciiUpper c := by
  unfold asciiUpper
  by_cases h : 97 ≤ c.toNat ∧ c.toNat ≤ 122
  · rw [if_pos h]
    have hv : (c.toNat - 32).isValidChar := Or.inl (by omega)
    rw [if_neg]
    rw [toNat_ofNat_valid hv]
    omega
  · rw [if_neg h, if_neg h]

theorem isFlightKeep_asciiUpper {c : Char} (h : isFlightKeep c = true) :
    isFlightKeep (asciiUpper c) = true := by
  unfold asciiUpper
  by_cases hl : 97 ≤ c.toNat ∧ c.toNat ≤ 122
  · rw [if_pos hl]
    have hv : (c.toNat - 32).isValidChar := Or.inl (by omega)
    simp [isFlightKeep, toNat_ofNat_valid hv]
    omega
  · rw [if_neg hl]
    exact h

theorem cleanFlightStr_idem (s : String) : cleanFlightStr (cleanFlightStr s) = cleanFlightStr s := by
  unfold cleanFlightStr
  have hdata : (String.mk (((s.data).filter isFlightKeep).map asciiUpper)).data
      = ((s.data).filter isFlightKeep).map asciiUpper := rfl
  rw [hdata]
  have hfilter : (((s.data).filter isFlightKeep).map asciiUpper).filter isFlightKeep
      = ((s.data).filter isFlightKeep).map asciiUpper := by
    rw [List.filter_eq_self]
    intro a ha
    obtain ⟨c, hc, rfl⟩ := List.mem_map.mp ha
    exact isFlightKeep_asciiUpper (List.of_mem_filter hc)
  rw [hfilter, List.map_map]
  have hcomp : asciiUpper ∘ asciiUpper = asciiUpper := funext asciiUpper_asciiUpper
  rw [hcomp]

/-! ### Claim C9: clean_flight_id normalisation and idempotence -/

/-- C9: `clean_flight_id` removes every character that is not an ASCII letter
or digit, uppercases the remainder, maps missing/empty input to the empty
string, and is idempotent: cleaning a second time changes nothing, both on
plain strings and through the missing-value wrapper. -/
theorem clean_flight_id_spec :
    clean_flight_number none = "" ∧
    clean_flight_number (some "") = "" ∧
    (∀ s : String, cleanFlightStr s = String.mk (((s.data).filter isFlightKeep).map asciiUpper)) ∧
    (∀ s : String, cleanFlightStr (cleanFlightStr s) = cleanFlightStr s) ∧
    (∀ o : Option String, clean_flight_number (some (clean_flight_number o)) = clean_flight_number o) := by
  refine ⟨rfl, rfl, fun s => rfl, cleanFlightStr_idem, ?_⟩
  intro o
  match o with
  | none => rfl
  | some s => exact cleanFlightStr_idem s

/-! ### Claim C10: determinism -/

/-- C10: `analyze` is deterministic — it is a pure function of the two input
tables and the configuration, so two runs on identical inputs yield identical
findings and identical diagnostics. -/
theorem analyze_deterministic (cfg cfg2 : Config) (refuel refuel2 : List RefuelRow)
    (schedule schedule2 : List ScheduleRow)
    (hc : cfg = cfg2) (hr : refuel = refuel2) (hs : schedule = schedule2) :
    analyze cfg refuel schedule = analyze cfg2 refuel2 schedule2 := by
  subst hc; subst hr; subst hs; rfl

/-- Witness for C10 at a concrete input. -/
theorem analyze_deterministic_witness :
    analyze ⟨60, 1000, [], [], []⟩ [⟨"100", some "AB1", "09:00:00"⟩] [⟨some "AB3", some "0930"⟩]
      = analyze ⟨60, 1000, [], [], []⟩ [⟨"100", some "AB1", "09:00:00"⟩] [⟨some "AB3", some "0930"⟩] :=
  analyze_deterministic _ _ _ _ _ _ rfl rfl rfl

/-! ### Claim C1: end-to-end scenario -/

/-- C1 counterexample: in the end-to-end scenario the emitted `Window_Start`
and `Window_End` fields are the receipt timestamps "09:00" and "10:00"
(src/app.py:196-197 formats `start_time`/`end_time`), not the slack-padded
"08:00"/"11:00" the claim asserts. -/
theorem c1_window_fields_counterexample :
    (analyze c1cfg c1receipts c1schedule).findings.map (fun f => (f.window_start, f.window_end))
      = [("09:00", "10:00"), ("09:00", "10:00")] ∧
    (("09:00", "10:00") ≠ (("08:00" : String), ("11:00" : String))) := by
  constructor
  · rfl
  · decide

/-- C1 (amended): the scenario yields exactly two findings, for missing ids
101 and 102, each carrying `Window_Start` "09:00" and `Window_End` "10:00"
(the receipt timestamps; the slack-padded matching window [08:00, 11:00] is
used only for the candidate scan) and candidate list exactly "AB3 (09:30)"
with AB4 absent; the diagnostics read 2 rows, all valid. -/
theorem c1_end_to_end :
    analyze c1cfg c1receipts c1schedule =
      ⟨[⟨101, "Normal", "09:00", "10:00", "AB3 (09:30)"⟩,
        ⟨102, "Normal", "09:00", "10:00", "AB3 (09:30)"⟩], 2, 2⟩ := by
  rfl

/-! ### Claim C2: prefix exclusion -/

/-- C2 counterexample: the row with raw id "102" matches an ignored prefix and
is dropped, yet its numeric id 102 still appears as the `missing_av7` of a
finding — the surviving receipts 100 and 103 leave a gap that enumerates 102. -/
theorem c2_prefix_counterexample :
    prefixMatch c2cfg ⟨"102", some "AB9", "09:30:00"⟩ = true ∧
    parseAV7Num "102" = some 102 ∧
    102 ∈ (analyze c2cfg c2receipts []).findings.map (fun f => f.missing_av7) := by
  refine ⟨rfl, rfl, ?_⟩
  decide

/-- C2 (amended): a receipt row whose raw receipt-id text starts with some
ignored prefix is removed before receipt-id parsing and never serves as
either endpoint of any gap — deleting it from the input changes nothing in
the analysis, findings and diagnostics alike. (Its numeric id can still be
reported as a missing id when it lies strictly between two retained
receipt ids.) -/
theorem prefix_matched_row_inert (cfg : Config) (xs ys : List RefuelRow) (r : RefuelRow)
    (schedule : List ScheduleRow) (h : prefixMatch cfg r = true) :
    analyze cfg (xs ++ r :: ys) schedule = analyze cfg (xs ++ ys) schedule := by
  have hkept : prefixKept cfg (xs ++ r :: ys) = prefixKept cfg (xs ++ ys) := by
    simp [prefixKept, List.filter_append, List.filter_cons, h]
  simp only [analyze, hkept]

/-- Witness for C2's amended theorem at a concrete input. -/
theorem prefix_matched_row_inert_witness :
    analyze c2cfg ([⟨"100", some "AB1", "09:00:00"⟩] ++ ⟨"102", some "AB9", "09:30:00"⟩ ::
        [⟨"103", some "AB2", "10:00:00"⟩]) []
      = analyze c2cfg ([⟨"100", some "AB1", "09:00:00"⟩] ++ [⟨"103", some "AB2", "10:00:00"⟩]) [] :=
  prefix_matched_row_inert c2cfg [⟨"100", some "AB1", "09:00:00"⟩]
    [⟨"103", some "AB2", "10:00:00"⟩] ⟨"102", some "AB9", "09:30:00"⟩ [] rfl

/-- Membership in the enumerated missing range is exactly strict betweenness. -/
theorem mem_missingRange {cur nxt n : Int} : n ∈ missingRange cur nxt ↔ cur < n ∧ n < nxt := by
  simp only [missingRange, List.mem_map, List.mem_range]
  constructor
  · rintro ⟨k, hk, rfl⟩
    omega
  · rintro ⟨h1, h2⟩
    exact ⟨(n - cur - 1).toNat, by omega, by omega⟩

/-- The enumerated missing range has no duplicates. -/
theorem missingRange_nodup (cur nxt : Int) : (missingRange cur nxt).Nodup :=
  (List.nodup_range _).map (fun x y h => by omega)

/-- Closed form of the loop body on an analyzable gap. -/
theorem findingsForPair_eq {cfg : Config} {pool : List PoolRow} {a b : CleanRow} {t_prev t_next : Time}
    (ha : a.refuel_time = some t_prev) (hb : b.refuel_time = some t_next)
    (h1 : 1 < b.av7_num - a.av7_num) (h2 : b.av7_num - a.av7_num ≤ cfg.series_jump_threshold) :
    findingsForPair cfg pool a b =
      (missingRange a.av7_num b.av7_num).filterMap (fun n =>
        if n ∈ cfg.known_cancelled_av7 then none
        else some ⟨n, logicNote t_prev t_next, fmtHM (pairStart t_prev t_next),
                   fmtHM (pairEnd t_prev t_next), candidateStr cfg pool t_prev t_next⟩) := by
  unfold findingsForPair
  rw [ha, hb, if_pos h1, if_neg (not_lt.mpr h2)]

/-- Every finding of one pair stems from an analyzable gap and carries the
gap's shared window fields and candidate string. -/
theorem mem_findingsForPair {cfg : Config} {pool : List PoolRow} {a b : CleanRow} {f : Finding}
    (hf : f ∈ findingsForPair cfg pool a b) :
    ∃ t_prev t_next, a.refuel_time = some t_prev ∧ b.refuel_time = some t_next ∧
      1 < b.av7_num - a.av7_num ∧ b.av7_num - a.av7_num ≤ cfg.series_jump_threshold ∧
      a.av7_num < f.missing_av7 ∧ f.missing_av7 < b.av7_num ∧
      f.missing_av7 ∉ cfg.known_cancelled_av7 ∧
      f.window_logic = logicNote t_prev t_next ∧
      f.window_start = fmtHM (pairStart t_prev t_next) ∧
      f.window_end = fmtHM (pairEnd t_prev t_next) ∧
      f.potential_flights = candidateStr cfg pool t_prev t_next := by
  unfold findingsForPair at hf
  split at hf
  · split at hf
    · exact absurd hf (by simp)
    · split at hf
      · rename_i t_prev t_next heqa heqb
        rw [List.mem_filterMap] at hf
        obtain ⟨n, hn, heq⟩ := hf
        rw [mem_missingRange] at hn
        by_cases hc : n ∈ cfg.known_cancelled_av7
        · rw [if_pos hc] at heq
          exact absurd heq (by simp)
        · rw [if_neg hc] at heq
          obtain rfl := Option.some.inj heq
          exact ⟨t_prev, t_next, heqa, heqb, by omega, by omega, hn.1, hn.2, hc, rfl, rfl, rfl, rfl⟩
      · exact absurd hf (by simp)
  · exact absurd hf (by simp)

/-- Every finding of a full run belongs to some adjacent pair of the
validated sequence. -/
theorem mem_gapFindings {cfg : Config} {pool : List PoolRow} {f : Finding} :
    ∀ {l : List CleanRow}, f ∈ gapFindings cfg pool l →
      ∃ a b, f ∈ findingsForPair cfg pool a b := by
  intro l
  induction l with
  | nil => intro h; exact absurd h (by simp [gapFindings])
  | cons a t ih =>
    match t with
    | [] => intro h; exact absurd h (by simp [gapFindings])
    | b :: rest =>
      intro h
      rw [gapFindings, List.mem_append] at h
      rcases h with h | h
      · exact ⟨a, b, h⟩
      · exact ih h

/-! ### Claim C4: candidate window test -/

/-- C4: a pool row is a candidate for a gap exactly when its scheduled time
parsed and its minute-of-day lies inclusively between the padded window
bounds, in exact integer arithmetic; for a Normal-order gap the bounds are
minutes(prev) − slack and minutes(next) + slack; for prev 09:00, next 09:10,
slack 60 the window is [480, 610] = [08:00, 10:10], a flight at 08:30
matches and one at 07:00 does not; no midnight normalisation is applied —
a negative bound is used as-is, so a 23:50 flight never matches a window
reaching below midnight. -/
theorem candidate_window_spec :
    (∀ (start_mins end_mins : Int) (r : PoolRow),
      (candidateEntry start_mins end_mins r).isSome = true ↔
        ∃ t, r.std_parsed = some t ∧
          start_mins ≤ ((t.hour * 60 + t.minute : Nat) : Int) ∧
          ((t.hour * 60 + t.minute : Nat) : Int) ≤ end_mins) ∧
    (∀ (cfg : Config) (t_prev t_next : Time), Time.lt t_next t_prev = false →
      startMins cfg t_prev t_next = ((t_prev.hour * 60 + t_prev.minute : Nat) : Int) - cfg.slack_minutes ∧
      endMins cfg t_prev t_next = ((t_next.hour * 60 + t_next.minute : Nat) : Int) + cfg.slack_minutes) ∧
    startMins ⟨60, 1000, [], [], []⟩ ⟨9, 0, 0⟩ ⟨9, 10, 0⟩ = 480 ∧
    endMins ⟨60, 1000, [], [], []⟩ ⟨9, 0, 0⟩ ⟨9, 10, 0⟩ = 610 ∧
    candidateEntry 480 610 ⟨some "F1", some ⟨8, 30, 0⟩⟩ = some "F1 (08:30)" ∧
    candidateEntry 480 610 ⟨some "F2", some ⟨7, 0, 0⟩⟩ = none ∧
    candidateEntry (-30) 10 ⟨some "F3", some ⟨0, 0, 0⟩⟩ = some "F3 (00:00)" ∧
    candidateEntry (-30) 10 ⟨some "F4", some ⟨23, 50, 0⟩⟩ = none := by
  refine ⟨?_, ?_, rfl, rfl, rfl, rfl, rfl, rfl⟩
  · intro sm em r
    cases hstd : r.std_parsed with
    | none => simp [candidateEntry, hstd]
    | some t =>
      by_cases hc : sm ≤ ((t.hour * 60 + t.minute : Nat) : Int) ∧ ((t.hour * 60 + t.minute : Nat) : Int) ≤ em
      · simp [candidateEntry, hstd, hc]
      · simp [candidateEntry, hstd, hc]
  · intro cfg t_prev t_next h
    constructor
    · simp [startMins, pairStart, h]
    · simp [endMins, pairEnd, h]

/-! ### Claim C5: swapped-order classification -/

/-- C5: for every analyzable gap, when the later-indexed receipt's timestamp
is strictly earlier than the former's, every finding of that gap is labelled
"Swapped (Reverse)" with (window_start, window_end) = (later, former
timestamp); otherwise "Normal" with (former, later). -/
theorem swapped_order_classification (cfg : Config) (pool : List PoolRow) (a b : CleanRow)
    (t_prev t_next : Time) (ha : a.refuel_time = some t_prev) (hb : b.refuel_time = some t_next) :
    ∀ f ∈ findingsForPair cfg pool a b,
      (Time.lt t_next t_prev = true →
        f.window_logic = "Swapped (Reverse)" ∧
        f.window_start = fmtHM t_next ∧ f.window_end = fmtHM t_prev) ∧
      (Time.lt t_next t_prev = false →
        f.window_logic = "Normal" ∧
        f.window_start = fmtHM t_prev ∧ f.window_end = fmtHM t_next) := by
  intro f hf
  obtain ⟨tp, tn, hap, hbp, _, _, _, _, _, hlogic, hstart, hend, _⟩ := mem_findingsForPair hf
  rw [ha] at hap
  rw [hb] at hbp
  obtain rfl := Option.some.inj hap
  obtain rfl := Option.some.inj hbp
  constructor
  · intro hlt
    exact ⟨by rw [hlogic, logicNote, if_pos hlt], by rw [hstart, pairStart, if_pos hlt],
           by rw [hend, pairEnd, if_pos hlt]⟩
  · intro hlt
    refine ⟨?_, ?_, ?_⟩
    · rw [hlogic, logicNote, hlt]
      simp
    · rw [hstart, pairStart, hlt]
      simp
    · rw [hend, pairEnd, hlt]
      simp

/-- Witness for C5: receipts sorted by id with prev at 10:00 and next at
09:30 yield a "Swapped (Reverse)" finding with window [09:30, 10:00]. -/
theorem swapped_order_witness :
    (⟨101, "Swapped (Reverse)", "09:30", "10:00", "No flights found in window"⟩ : Finding)
        ∈ findingsForPair c5cfg [] c5a c5b ∧
    Finding.window_logic ⟨101, "Swapped (Reverse)", "09:30", "10:00", "No flights found in window"⟩
        = "Swapped (Reverse)" ∧
    Finding.window_start ⟨101, "Swapped (Reverse)", "09:30", "10:00", "No flights found in window"⟩
        = fmtHM ⟨9, 30, 0⟩ ∧
    Finding.window_end ⟨101, "Swapped (Reverse)", "09:30", "10:00", "No flights found in window"⟩
        = fmtHM ⟨10, 0, 0⟩ :=
  ⟨by decide,
   (swapped_order_classification c5cfg [] c5a c5b ⟨10, 0, 0⟩ ⟨9, 30, 0⟩ rfl rfl _ (by decide)).1 rfl⟩

/-! ### Claim C3: gap classification and skips -/

/-- C3 counterexample: a gap of size 2 within the threshold whose two
timestamps both parsed produces no findings, because the only in-between
integer (101) is in `known_cancelled_av7` — refuting the claimed "emits
findings if and only if 1 < gap_size ≤ max_gap_size and both timestamps
parsed". -/
theorem gap_skip_counterexample :
    findingsForPair c3cfg [] c3a c3b = [] ∧
    1 < c3b.av7_num - c3a.av7_num ∧
    c3b.av7_num - c3a.av7_num ≤ c3cfg.series_jump_threshold ∧
    (c3a.refuel_time).isSome = true ∧ (c3b.refuel_time).isSome = true := by
  refine ⟨rfl, by decide, by decide, rfl, rfl⟩

/-- C3 (amended): an adjacent pair yields findings iff
1 < gap_size ≤ max_gap_size, both adjacent timestamps parsed, and at least
one integer strictly between the endpoint ids is not an ignored receipt id;
any skip is silent and the loop still processes the remaining pairs. -/
theorem gap_classification (cfg : Config) (pool : List PoolRow) (a b : CleanRow) (rest : List CleanRow) :
    gapFindings cfg pool (a :: b :: rest) =
      findingsForPair cfg pool a b ++ gapFindings cfg pool (b :: rest) ∧
    (findingsForPair cfg pool a b ≠ [] ↔
      (1 < b.av7_num - a.av7_num ∧ b.av7_num - a.av7_num ≤ cfg.series_jump_threshold ∧
       (a.refuel_time).isSome = true ∧ (b.refuel_time).isSome = true ∧
       ∃ n : Int, a.av7_num < n ∧ n < b.av7_num ∧ n ∉ cfg.known_cancelled_av7)) := by
  refine ⟨rfl, ?_⟩
  constructor
  · intro hne
    obtain ⟨f, hf⟩ := List.exists_mem_of_ne_nil _ hne
    obtain ⟨tp, tn, hap, hbp, h1, h2, hlt1, hlt2, hc, _, _, _, _⟩ := mem_findingsForPair hf
    exact ⟨h1, h2, by rw [hap]; rfl, by rw [hbp]; rfl, f.missing_av7, hlt1, hlt2, hc⟩
  · rintro ⟨h1, h2, hsa, hsb, n, hn1, hn2, hnc⟩
    obtain ⟨tp, hap⟩ := Option.isSome_iff_exists.mp hsa
    obtain ⟨tn, hbp⟩ := Option.isSome_iff_exists.mp hsb
    rw [findingsForPair_eq hap hbp h1 h2]
    intro hnil
    rw [List.filterMap_eq_nil_iff] at hnil
    have hx := hnil n (mem_missingRange.mpr ⟨hn1, hn2⟩)
    rw [if_neg hnc] at hx
    exact Option.noConfusion hx

/-! ### Claim C6: exclusion and per-gap enumeration -/

/-- Mapping findings back to their missing ids turns the skip-on-ignored
`filterMap` into a plain filter of the enumerated range. -/
theorem map_missing_filterMap (l c : List Int) (L S E P : String) :
    ((l.filterMap (fun n => if n ∈ c then none else some (⟨n, L, S, E, P⟩ : Finding))).map
        (fun f => f.missing_av7))
      = l.filter (fun n => decide (n ∉ c)) := by
  induction l with
  | nil => simp
  | cons x t ih =>
    by_cases hx : x ∈ c
    · simp [List.filterMap_cons, hx, ih]
    · simp [List.filterMap_cons, hx, ih]

/-- C6: no finding ever carries an ignored receipt id (in any full run);
within one analyzable gap the missing ids are exactly the non-ignored
integers strictly between the endpoints, each occurring exactly once (the
id list is duplicate-free and complete), and all findings of the gap share
the same window fields and the same candidate string, computed once. -/
theorem exclusion_and_enumeration (cfg : Config) (pool : List PoolRow) (a b : CleanRow)
    (t_prev t_next : Time) (ha : a.refuel_time = some t_prev) (hb : b.refuel_time = some t_next)
    (h1 : 1 < b.av7_num - a.av7_num) (h2 : b.av7_num - a.av7_num ≤ cfg.series_jump_threshold) :
    ((findingsForPair cfg pool a b).map (fun f => f.missing_av7)
       = (missingRange a.av7_num b.av7_num).filter (fun n => decide (n ∉ cfg.known_cancelled_av7))) ∧
    ((findingsForPair cfg pool a b).map (fun f => f.missing_av7)).Nodup ∧
    (∀ n : Int, a.av7_num < n → n < b.av7_num → n ∉ cfg.known_cancelled_av7 →
       n ∈ (findingsForPair cfg pool a b).map (fun f => f.missing_av7)) ∧
    (∀ f ∈ findingsForPair cfg pool a b, ∀ g ∈ findingsForPair cfg pool a b,
       f.window_logic = g.window_logic ∧ f.window_start = g.window_start ∧
       f.window_end = g.window_end ∧ f.potential_flights = g.potential_flights) ∧
    (∀ (refuel : List RefuelRow) (schedule : List ScheduleRow) (f : Finding),
       f ∈ (analyze cfg refuel schedule).findings → f.missing_av7 ∉ cfg.known_cancelled_av7) := by
  have hmap : (findingsForPair cfg pool a b).map (fun f => f.missing_av7)
      = (missingRange a.av7_num b.av7_num).filter (fun n => decide (n ∉ cfg.known_cancelled_av7)) := by
    rw [findingsForPair_eq ha hb h1 h2, map_missing_filterMap]
  refine ⟨hmap, ?_, ?_, ?_, ?_⟩
  · rw [hmap]
    exact (missingRange_nodup _ _).filter _
  · intro n hn1 hn2 hnc
    rw [hmap, List.mem_filter]
    exact ⟨mem_missingRange.mpr ⟨hn1, hn2⟩, by simpa using hnc⟩
  · intro f hf g hg
    obtain ⟨tp, tn, hap, hbp, _, _, _, _, _, hl1, hs1, he1, hp1⟩ := mem_findingsForPair hf
    obtain ⟨tp2, tn2, hap2, hbp2, _, _, _, _, _, hl2, hs2, he2, hp2⟩ := mem_findingsForPair hg
    rw [hap] at hap2
    rw [hbp] at hbp2
    obtain rfl := Option.some.inj hap2
    obtain rfl := Option.some.inj hbp2
    exact ⟨by rw [hl1, hl2], by rw [hs1, hs2], by rw [he1, he2], by rw [hp1, hp2]⟩
  · intro refuel schedule f hf
    simp only [analyze] at hf
    obtain ⟨x, y, hxy⟩ := mem_gapFindings hf
    obtain ⟨_, _, _, _, _, _, _, _, hc, _⟩ := mem_findingsForPair hxy
    exact hc

/-- Witness for C6 at the concrete enumeration scenario: the gap 100 → 103
with ignored id 101 reports exactly [102]. -/
theorem exclusion_and_enumeration_witness :
    (findingsForPair c6cfg [] c6a c6b).map (fun f => f.missing_av7)
      = (missingRange c6a.av7_num c6b.av7_num).filter
          (fun n => decide (n ∉ c6cfg.known_cancelled_av7)) :=
  (exclusion_and_enumeration c6cfg [] c6a c6b ⟨9, 0, 0⟩ ⟨10, 0, 0⟩ rfl rfl
    (by decide) (by decide)).1

/-! ### Claim C7: sequence validator -/

/-- C7: the Sequence Validator output is sorted ascending by receipt id and
is, up to order, exactly the validation of the input rows: a row is dropped
iff its receipt id fails to coerce to a number, and every row whose id
parses contributes its validated form to the output. -/
theorem sequence_validator_spec (rows : List RefuelRow) :
    (sequenceValidator rows).Pairwise (fun x y => x.av7_num ≤ y.av7_num) ∧
    (sequenceValidator rows).Perm (rows.filterMap mkCleanRow) ∧
    (∀ r : RefuelRow, mkCleanRow r = none ↔ parseAV7Num r.av7 = none) ∧
    (∀ r ∈ rows, ∀ cr : CleanRow, mkCleanRow r = some cr → cr ∈ sequenceValidator rows) := by
  haveI hTot : IsTotal CleanRow (fun x y => x.av7_num ≤ y.av7_num) := ⟨fun x y => le_total _ _⟩
  haveI hTr : IsTrans CleanRow (fun x y => x.av7_num ≤ y.av7_num) :=
    ⟨fun x y z hxy hyz => le_trans hxy hyz⟩
  refine ⟨List.sorted_insertionSort _ _, List.perm_insertionSort _ _, ?_, ?_⟩
  · intro r
    unfold mkCleanRow
    exact Option.map_eq_none'
  · intro r hr cr hcr
    have hmem : cr ∈ rows.filterMap mkCleanRow := List.mem_filterMap.mpr ⟨r, hr, hcr⟩
    exact ((List.perm_insertionSort _ _).mem_iff).mpr hmem

/-! ### Claim C8: seconds-only swaps -/

/-- The full-timestamp comparison is decided by the seconds when hours and
minutes agree. -/
theorem time_lt_of_second_lt {tp tn : Time} (hh : tn.hour = tp.hour)
    (hm : tn.minute = tp.minute) (hs : tn.second < tp.second) :
    Time.lt tn tp = true ∧ Time.lt tp tn = false := by
  constructor
  · simp [Time.lt, hh, hm, hs]
  · simp [Time.lt, hh, hm]
    omega

/-- C8: when the adjacent timestamps agree up to the minute but the
later-indexed one is earlier by seconds only, the gap is classified
"Swapped (Reverse)" (the comparison sees the seconds), yet — because the
window bounds discard seconds — the findings are exactly those of the
chronologically ordered pair apart from the logic label: same windows, same
candidates, same missing ids. -/
theorem seconds_only_swap (cfg : Config) (pool : List PoolRow) (a b : CleanRow)
    (t_prev t_next : Time) (ha : a.refuel_time = some t_prev) (hb : b.refuel_time = some t_next)
    (hh : t_next.hour = t_prev.hour) (hm : t_next.minute = t_prev.minute)
    (hs : t_next.second < t_prev.second) :
    (∀ f ∈ findingsForPair cfg pool a b, f.window_logic = "Swapped (Reverse)") ∧
    ((findingsForPair cfg pool a b).map (fun f => { f with window_logic := "Normal" })
       = findingsForPair cfg pool { a with refuel_time := some t_next }
           { b with refuel_time := some t_prev }) := by
  obtain ⟨hlt, hnlt⟩ := time_lt_of_second_lt hh hm hs
  constructor
  · intro f hf
    obtain ⟨tp, tn, hap, hbp, _, _, _, _, _, hlogic, _, _, _⟩ := mem_findingsForPair hf
    rw [ha] at hap
    rw [hb] at hbp
    obtain rfl := Option.some.inj hap
    obtain rfl := Option.some.inj hbp
    rw [hlogic, logicNote, if_pos hlt]
  · by_cases h1 : 1 < b.av7_num - a.av7_num
    · by_cases h2 : b.av7_num - a.av7_num ≤ cfg.series_jump_threshold
      · rw [findingsForPair_eq ha hb h1 h2]
        rw [findingsForPair_eq (a := { a with refuel_time := some t_next })
              (b := { b with refuel_time := some t_prev }) rfl rfl h1 h2]
        rw [List.map_filterMap]
        apply List.filterMap_congr
        intro n hn
        by_cases hc : n ∈ cfg.known_cancelled_av7
        · rw [if_pos hc, if_pos hc]
          rfl
        · rw [if_neg hc, if_neg hc]
          have hstart : pairStart t_prev t_next = pairStart t_next t_prev := by
            rw [pairStart, pairStart, if_pos hlt, hnlt]
            simp
          have hend : pairEnd t_prev t_next = pairEnd t_next t_prev := by
            rw [pairEnd, pairEnd, if_pos hlt, hnlt]
            simp
          have hcand : candidateStr cfg pool t_prev t_next = candidateStr cfg pool t_next t_prev := by
            rw [candidateStr, candidateStr, startMins, startMins, endMins, endMins, hstart, hend]
          simp [logicNote, hlt, hnlt, hstart, hend, hcand]
      · have h2x := not_le.mp h2
        simp [findingsForPair, h1, h2x]
    · simp [findingsForPair, h1]

/-- Witness for C8: receipts at 09:00:30 and 09:00:10 — swapped by seconds
only — give the same findings as the chronological order up to the logic
label. -/
theorem seconds_only_swap_witness :
    (findingsForPair c8cfg [] c8a c8b).map (fun f => { f with window_logic := "Normal" })
      = findingsForPair c8cfg [] { c8a with refuel_time := some ⟨9, 0, 10⟩ }
          { c8b with refuel_time := some ⟨9, 0, 30⟩ } :=
  (seconds_only_swap c8cfg [] c8a c8b ⟨9, 0, 30⟩ ⟨9, 0, 10⟩ rfl rfl rfl rfl (by decide)).2

end AV7
